import Mathlib

/-!
Verification development for the BagResponse training timer
(`src/app/page.tsx`, `src/lib/patterns.ts`).

The source is a React component; its session engine is a set of state
variables (`phase`, `currentRound`, `timeRemaining`, `currentPattern`,
`isPaused`) mutated by `startTraining`, a 1-second `setInterval` callback,
`togglePause`, and the callout scheduler.  We embed those state variables as
one record and each mutation as a pure function on it.  JavaScript numbers
are embedded as `ℚ` (all arithmetic performed on them here — `* 60`, `- 1`,
comparisons — is exact), except fields that are only ever integers
(`rounds`, `currentRound`), embedded as `ℤ`.
-/

namespace BagResponse

/-- A pattern is a sequence of numbers (source: `type Pattern = number[]`;
all patterns constructed by the app are lists of integers 1..10). -/
abbrev Pattern := List ℤ

/-- Source: `interface PatternSet` in `page.tsx` / `patterns.ts`.
`isDefault` is optional in the source (`isDefault?: boolean`); a missing
field behaves as `false`, so we embed it as `Bool`. -/
structure PatternSet where
  id : String
  name : String
  patterns : List Pattern
  isDefault : Bool
deriving DecidableEq, Repr

/-- Source: `const DEFAULT_PATTERN_SETS: PatternSet[]` in `page.tsx`. -/
def DEFAULT_PATTERN_SETS : List PatternSet :=
  [ { id := "basic-1", name := "Basic 1",
      patterns := [[1], [2], [1, 2]], isDefault := true },
    { id := "basic-2", name := "Basic 2",
      patterns := [[3], [4], [3, 4]], isDefault := true },
    { id := "basic-3", name := "Basic 3",
      patterns := [[1, 2, 3, 4], [1, 2], [3, 4]], isDefault := true },
    { id := "advanced", name := "Advanced",
      patterns := [[1, 1, 2], [1, 2, 1, 2], [1, 2, 3, 4], [3, 4]],
      isDefault := true } ]

/-- Source: `interface TrainingConfig` in `page.tsx`. -/
structure TrainingConfig where
  rounds : ℤ
  minutesPerRound : ℚ
  restSeconds : ℚ
  selectedPatternSetId : String
  baseDelay : ℚ
  delayVariance : ℚ
  playbackSpeed : ℚ
deriving DecidableEq, Repr

/-- Source: `type Phase = "setup" | "round" | "rest" | "complete"`
(`page.tsx` line 26).  Note the source has no countdown phase. -/
inductive Phase where
  | setup
  | round
  | rest
  | complete
deriving DecidableEq, Repr

/-- The engine's mutable state: the React state variables of `Home` that the
session operations touch (`phase`, `currentRound`, `timeRemaining`,
`currentPattern`, `isPaused`). -/
structure SessionState where
  phase : Phase
  currentRound : ℤ
  timeRemaining : ℚ
  currentPattern : Option Pattern
  isPaused : Bool
deriving DecidableEq, Repr

/-- Source: `getCurrentPatternSet` in `page.tsx`:
`patternSets.find(s => s.id === config.selectedPatternSetId) || patternSets[0]`.
`undefined` (empty list, no match) is embedded as `none`. -/
def getCurrentPatternSet (patternSets : List PatternSet)
    (config : TrainingConfig) : Option PatternSet :=
  match patternSets.find? (fun s => s.id == config.selectedPatternSetId) with
  | some s => some s
  | none => patternSets.head?

/-- Source: `startTraining` in `page.tsx` (lines 259-276).  It performs no
validation: it unconditionally sets `currentRound` to 1, `phase` to
`"round"`, `timeRemaining` to `config.minutesPerRound * 60`, and `isPaused`
to `false`.  (The first callout is issued by a separate
`setTimeout(..., 2000)`, see `startTrainingCalloutDelayMs`; no countdown
phase or signal is involved.) -/
def startTraining (config : TrainingConfig) (s : SessionState) : SessionState :=
  { s with
    currentRound := 1
    phase := Phase.round
    timeRemaining := config.minutesPerRound * 60
    isPaused := false }

/-- Source: the literal delay of the `setTimeout` in `startTraining` that
issues the initial callout (`page.tsx` line 268-275: `setTimeout(() => {...}, 2000)`). -/
def startTrainingCalloutDelayMs : ℕ := 2000

/-- Source: the initial callout of `startTraining` picks
`currentSet.patterns[Math.floor(Math.random() * currentSet.patterns.length)]`
— an arbitrary index into the full pattern list (no exclusion of a previous
pattern).  The random draw is embedded as an arbitrary natural `k` reduced
mod the length; an empty list gives `undefined`, embedded as `none`. -/
def startTrainingInitialPattern (currentSet : PatternSet) (k : ℕ) : Option Pattern :=
  currentSet.patterns.get? (k % currentSet.patterns.length)

/-- Source: the body of the 1-second `setInterval` callback of the timer
`useEffect` (`page.tsx` lines 286-330).  The interval only exists while the
phase is `"round"` or `"rest"`; in any other phase no tick fires, embedded
as the identity.  Inside, the callback is a no-op while paused; otherwise it
updates `timeRemaining` via `prev => ...`: at `prev <= 1` it performs the
phase transition (round → rest with `restSeconds`, or round → complete with
0, or rest → round incrementing `currentRound` and reseeding
`minutesPerRound * 60`), else it decrements.  No signal or beep of any kind
is triggered anywhere in this callback. -/
def tick (config : TrainingConfig) (s : SessionState) : SessionState :=
  if s.phase = Phase.round ∨ s.phase = Phase.rest then
    if s.isPaused then s
    else if s.timeRemaining ≤ 1 then
      if s.phase = Phase.round then
        if s.currentRound < config.rounds then
          { s with phase := Phase.rest, timeRemaining := config.restSeconds }
        else
          { s with phase := Phase.complete, timeRemaining := 0 }
      else
        { s with
          phase := Phase.round
          currentRound := s.currentRound + 1
          timeRemaining := config.minutesPerRound * 60 }
    else
      { s with timeRemaining := s.timeRemaining - 1 }
  else s

/-- Source: `togglePause` in `page.tsx` (lines 352-354):
`setIsPaused(prev => !prev)`.  Pausing is this with `isPaused = false`,
resuming is this again; nothing else is touched. -/
def togglePause (s : SessionState) : SessionState :=
  { s with isPaused := !s.isPaused }

/-- Source: the pattern selection inside `scheduleCallout`'s timeout body
(`page.tsx` lines 234-243):
`availablePatterns = currentSet.patterns.filter(p => JSON.stringify(p) !== JSON.stringify(prevPattern))`;
choose from `availablePatterns` if non-empty, else from all patterns, at
index `Math.floor(Math.random() * length)`.  `JSON.stringify` equality on
`number[] | null` coincides with structural equality on `Option Pattern`
(`null` stringifies to `"null"`, distinct from every array).  The random
draw is embedded as an arbitrary natural `k` reduced mod the pool length. -/
def scheduleCallout (currentSet : PatternSet) (prevPattern : Option Pattern)
    (k : ℕ) : Option Pattern :=
  let availablePatterns :=
    currentSet.patterns.filter (fun p => decide (some p ≠ prevPattern))
  let patternsToChooseFrom :=
    if availablePatterns.length > 0 then availablePatterns
    else currentSet.patterns
  patternsToChooseFrom.get? (k % patternsToChooseFrom.length)

/-! ### Pattern-set management (`page.tsx` lines 117-132, 375-424) -/

/-- The `Home` state touched by pattern-set management: the pattern-set
collection, `config.selectedPatternSetId`, and `editingSet`. -/
structure HomeState where
  patternSets : List PatternSet
  selectedPatternSetId : String
  editingSet : Option PatternSet
deriving DecidableEq, Repr

/-- Source: `deleteSet` (`page.tsx` lines 375-390): find the set by id; if it
is a default set, return without changes; otherwise filter it out, and if it
was the selected set and sets remain, select the first remaining set
(`newSets[0].id`); clear `editingSet` if it was the deleted set. -/
def deleteSet (setId : String) (st : HomeState) : HomeState :=
  let setToDelete := st.patternSets.find? (fun s => s.id == setId)
  if (setToDelete.map (fun s => s.isDefault)).getD false then st
  else
    let newSets := st.patternSets.filter (fun s => s.id != setId)
    { patternSets := newSets
      selectedPatternSetId :=
        if st.selectedPatternSetId == setId ∧ newSets.length > 0 then
          ((newSets.head?.map (fun s => s.id)).getD st.selectedPatternSetId)
        else st.selectedPatternSetId
      editingSet :=
        if (st.editingSet.map (fun e => e.id == setId)).getD false then none
        else st.editingSet }

/-- Source: `removePatternFromSet` (`page.tsx` lines 416-424): in the set
with the given id, filter out the pattern (by `JSON.stringify` equality,
i.e. structural list equality), but keep the old pattern list if the filter
result would be empty. -/
def removePatternFromSet (setId : String) (pattern : Pattern)
    (sets : List PatternSet) : List PatternSet :=
  sets.map fun s =>
    if s.id == setId then
      let newPatterns := s.patterns.filter (fun p => decide (p ≠ pattern))
      { s with
        patterns := if newPatterns.length > 0 then newPatterns else s.patterns }
    else s

/-- Source: the load `useEffect` (`page.tsx` lines 117-132): the pattern-set
collection after reading `localStorage`.  `none` models no saved value or a
`JSON.parse` failure (defaults kept); a parsed non-empty array is merged
with the default sets whose ids it is missing
(`[...parsed, ...missingDefaults]`); an empty array keeps the defaults. -/
def loadedPatternSets (saved : Option (List PatternSet)) : List PatternSet :=
  match saved with
  | none => DEFAULT_PATTERN_SETS
  | some parsed =>
    if parsed.length > 0 then
      parsed ++ DEFAULT_PATTERN_SETS.filter
        (fun d => !(parsed.any (fun s => s.id == d.id)))
    else DEFAULT_PATTERN_SETS

/-! ### Share encoding (`page.tsx` lines 429-460, `src/lib/patterns.ts`)

`encodePatternSet` is `btoa(JSON.stringify({n: set.name, p: set.patterns}))`
and `decodePatternSet` is `JSON.parse(atob(base64))` followed by the shape
check `data.n && Array.isArray(data.p)`.  `btoa`/`atob` and
`JSON.stringify`/`JSON.parse` are browser builtins (external collaborators
per the design); we embed the token at the level of the parsed JSON value:
an inductive `Json` mirrors the possible `JSON.parse` results, and a decode
input of `none` models a token on which `atob` or `JSON.parse` throws
(invalid base64 / malformed JSON) — the `try`/`catch` in the source turns
that into a `null` result. -/

/-- A JSON value as produced by `JSON.parse` (numbers are exact here, which
is faithful for the small integers the app serializes). -/
inductive Json where
  | null
  | bool (b : Bool)
  | num (q : ℚ)
  | str (s : String)
  | arr (elems : List Json)
  | obj (fields : List (String × Json))

/-- Property access `data[key]` on a parsed JSON value: a key lookup on an
object, `undefined` (here `none`) on anything else.  (On `null` the source
would throw, but the surrounding `try`/`catch` makes that observably
identical to a falsy result.) -/
def getProp : Json → String → Option Json
  | Json.obj fields, key => lookupField fields key
  | _, _ => none
where
  lookupField : List (String × Json) → String → Option Json
  | [], _ => none
  | (k, v) :: rest, key => if k == key then some v else lookupField rest key

/-- JavaScript truthiness of a parsed JSON value. -/
def jsTruthy : Json → Bool
  | Json.null => false
  | Json.bool b => b
  | Json.num q => decide (q ≠ 0)
  | Json.str s => decide (s ≠ "")
  | Json.arr _ => true
  | Json.obj _ => true

/-- Truthiness of a possibly-`undefined` value (`undefined` is falsy). -/
def jsTruthyOpt : Option Json → Bool
  | none => false
  | some j => jsTruthy j

/-- `Array.isArray` on a possibly-`undefined` value. -/
def isJsonArray : Option Json → Bool
  | some (Json.arr _) => true
  | _ => false

/-- Source: `encodePatternSet` (`page.tsx` lines 429-440 / `patterns.ts`):
the data serialized into the share token is `{ n: set.name, p: set.patterns }`. -/
def encodePatternSet (set : PatternSet) : Json :=
  Json.obj
    [ ("n", Json.str set.name),
      ("p", Json.arr (set.patterns.map
        (fun p => Json.arr (p.map (fun n : ℤ => Json.num (n : ℚ)))))) ]

/-- The value `decodePatternSet` builds: `id` is regenerated
(`imported-${Date.now()}`, with `Date.now()` embedded as the parameter
`now`), `name` is `data.n` as-is and `patterns` is `data.p` as-is — the
elements of `data.p` are **not** validated, so they are raw JSON values. -/
structure DecodedPatternSet where
  id : String
  name : Json
  patterns : List Json

/-- Source: `decodePatternSet` (`page.tsx` lines 443-460 / `patterns.ts`):
parse the token, and if `data.n` is truthy and `data.p` is an array, return
`{ id: imported-now, name: data.n, patterns: data.p }`; any parse failure or
failed shape check yields `null`. -/
def decodePatternSet (now : ℕ) (parsed : Option Json) : Option DecodedPatternSet :=
  match parsed with
  | none => none
  | some data =>
    match getProp data "n", getProp data "p" with
    | some n, some (Json.arr ps) =>
      if jsTruthy n then
        some { id := "imported-" ++ toString now, name := n, patterns := ps }
      else none
    | _, _ => none

/-- Interpretation of a JSON value back as a `Pattern` (an array of
integers); statement apparatus for the round-trip property. -/
def jsonToPattern : Json → Option Pattern
  | Json.arr xs => jsonListToInts xs
  | _ => none
where
  jsonListToInts : List Json → Option (List ℤ)
  | [] => some []
  | Json.num q :: rest =>
    if q.den = 1 then (jsonListToInts rest).map (fun ns => q.num :: ns)
    else none
  | _ :: _ => none

/-! ### Trace apparatus for the session claims -/

/-- Number of `p`→`q` phase transitions observed during the next `n` ticks
from state `s` (statement apparatus for counting round/rest visits). -/
def countPhaseChanges (config : TrainingConfig) (p q : Phase) :
    SessionState → ℕ → ℕ
  | _, 0 => 0
  | s, n + 1 =>
    (if s.phase = p ∧ (tick config s).phase = q then 1 else 0) +
      countPhaseChanges config p q (tick config s) n

/-! ### Concrete fixtures used by witnesses and counterexamples -/

/-- A well-formed configuration: 3 rounds of 2 minutes, 30 s rest, the
built-in `basic-1` set selected. -/
def cfgEx : TrainingConfig :=
  { rounds := 3, minutesPerRound := 2, restSeconds := 30,
    selectedPatternSetId := "basic-1", baseDelay := 3, delayVariance := 2,
    playbackSpeed := 1 }

/-- The engine state on the setup screen, before a session starts. -/
def setupState : SessionState :=
  { phase := Phase.setup, currentRound := 1, timeRemaining := 0,
    currentPattern := none, isPaused := false }

/-- An invalid configuration per the claims: `rounds = 0` (< 1) and the
selected pattern set has zero patterns. -/
def cfgInvalid : TrainingConfig :=
  { rounds := 0, minutesPerRound := 2, restSeconds := 30,
    selectedPatternSetId := "custom-empty", baseDelay := 3,
    delayVariance := 2, playbackSpeed := 1 }

/-- A pattern-set collection whose only set (the selected one) is a freshly
created custom set with zero patterns (`createNewSet` creates
`patterns: []`). -/
def emptyPatternSets : List PatternSet :=
  [ { id := "custom-empty", name := "My Custom Set", patterns := [],
      isDefault := false } ]

/-- A mid-round state with 5 seconds remaining in the round. -/
def roundAt5s : SessionState :=
  { phase := Phase.round, currentRound := 1, timeRemaining := 5,
    currentPattern := some [1], isPaused := false }

/-- A rest state with 3 seconds remaining. -/
def restAt3s : SessionState :=
  { phase := Phase.rest, currentRound := 1, timeRemaining := 3,
    currentPattern := some [1], isPaused := false }

/-- A share token whose `p` array holds values that are not sequences of
integers 1–10. -/
def tokenUnvalidatedPatterns : Json :=
  Json.obj [("n", Json.str "X"), ("p", Json.arr [Json.str "bad", Json.num 5])]

/-- A user-created (non-default) pattern set. -/
def customSet5 : PatternSet :=
  { id := "custom-1", name := "Mine", patterns := [[5]], isDefault := false }

/-- A `Home` state holding the default sets plus one custom set, with the
custom set selected. -/
def homeStateEx : HomeState :=
  { patternSets := DEFAULT_PATTERN_SETS ++ [customSet5],
    selectedPatternSetId := "custom-1", editingSet := none }

/-! ## Claim theorems -/

/-- C1 (code evaluation at the failing input): at a concrete well-formed
configuration, `startTraining` does not enter any countdown phase — the
`Phase` type has no countdown value and the state goes straight to `round`
with `timeRemainingSeconds` seeded — and the first callout is scheduled a
fixed 2000 ms later, not triggered by a 3-second lead-in; no start signal
exists in this code path. -/
theorem startTraining_enters_round_immediately :
    (startTraining cfgEx setupState).phase = Phase.round ∧
    (startTraining cfgEx setupState).currentRound = 1 ∧
    (startTraining cfgEx setupState).timeRemaining = 120 ∧
    startTrainingCalloutDelayMs = 2000 := by
  refine ⟨rfl, rfl, ?_, rfl⟩
  show (2 : ℚ) * 60 = 120
  norm_num

/-- C3 (code evaluation at the failing inputs): the tick at 5 seconds
remaining in a round and the tick at 3 seconds remaining in a rest are
ordinary decrements — the embedded `tick` is the complete timer callback of
the source, and it contains no signal invocation at any threshold. -/
theorem tick_no_signal_at_thresholds :
    tick cfgEx roundAt5s = { roundAt5s with timeRemaining := 4 } ∧
    tick cfgEx restAt3s = { restAt3s with timeRemaining := 2 } := by
  constructor <;> · simp [tick, cfgEx, roundAt5s, restAt3s]; norm_num

/-- C4 (counterexample): with `rounds = 0` (< 1) and a selected pattern
set with zero patterns, `startTraining` still starts the session — the phase
moves from `setup` to `round` and `timeRemainingSeconds` is mutated — so the
configuration is not rejected and state is mutated, contradicting the
claim. -/
theorem startTraining_accepts_invalid_config :
    cfgInvalid.rounds < 1 ∧
    (getCurrentPatternSet emptyPatternSets cfgInvalid).map
      (fun s => s.patterns) = some [] ∧
    setupState.phase = Phase.setup ∧
    (startTraining cfgInvalid setupState).phase = Phase.round ∧
    (startTraining cfgInvalid setupState).timeRemaining = 120 := by
  refine ⟨by norm_num [cfgInvalid], by decide, rfl, rfl, ?_⟩
  show (2 : ℚ) * 60 = 120
  norm_num

/-- C4 (amended): `startTraining` performs no validation at all: even
when `rounds < 1` or the selected pattern set has zero patterns, the session
starts unconditionally — the phase becomes `round`, `currentRound` is reset
to 1, `timeRemainingSeconds` is seeded and the pause flag cleared; no
`InvalidConfiguration` condition exists in the code. -/
theorem startTraining_no_validation (config : TrainingConfig)
    (patternSets : List PatternSet) (s : SessionState)
    (_h : config.rounds < 1 ∨
      (getCurrentPatternSet patternSets config).map
        (fun ps => ps.patterns) = some []) :
    (startTraining config s).phase = Phase.round ∧
    (startTraining config s).currentRound = 1 ∧
    (startTraining config s).timeRemaining = config.minutesPerRound * 60 ∧
    (startTraining config s).isPaused = false := by
  exact ⟨rfl, rfl, rfl, rfl⟩

/-- Witness for `startTraining_no_validation` at the invalid fixture. -/
theorem startTraining_no_validation_witness :
    (startTraining cfgInvalid setupState).phase = Phase.round ∧
    (startTraining cfgInvalid setupState).currentRound = 1 ∧
    (startTraining cfgInvalid setupState).timeRemaining =
      cfgInvalid.minutesPerRound * 60 ∧
    (startTraining cfgInvalid setupState).isPaused = false :=
  startTraining_no_validation cfgInvalid emptyPatternSets setupState
    (Or.inl (by norm_num [cfgInvalid]))

/-- C7: pausing (`togglePause` from an unpaused state) followed
immediately by resuming (`togglePause` again), with no tick in between,
leaves `timeRemainingSeconds` and `currentRound` (indeed the whole state)
unchanged: `togglePause` only flips the pause flag. -/
theorem pause_then_resume_frame (s : SessionState) :
    (togglePause (togglePause s)).timeRemaining = s.timeRemaining ∧
    (togglePause (togglePause s)).currentRound = s.currentRound ∧
    togglePause (togglePause s) = s := by
  refine ⟨rfl, rfl, ?_⟩
  cases s
  simp [togglePause]

/-- C5: whenever the active pattern set contains at least two distinct
patterns, `scheduleCallout` (i) only ever returns a member of the set that
differs from the immediately previous pattern, and (ii) every member of the
set other than the previous pattern is attainable by some random draw — the
draw is uniform over exactly the exclusion-filtered candidate list. -/
theorem scheduleCallout_no_immediate_repeat (currentSet : PatternSet)
    (q : Pattern) (k : ℕ)
    (h2 : ∃ a ∈ currentSet.patterns, ∃ b ∈ currentSet.patterns, a ≠ b) :
    (∀ p, scheduleCallout currentSet (some q) k = some p →
      p ∈ currentSet.patterns ∧ p ≠ q) ∧
    (∀ p ∈ currentSet.patterns, p ≠ q →
      ∃ j, scheduleCallout currentSet (some q) j = some p) := by
  obtain ⟨a, ha, b, hb, hab⟩ := h2
  set avail :=
    currentSet.patterns.filter (fun p => decide (some p ≠ some q)) with havail
  have hmem : ∀ p, p ∈ avail ↔ p ∈ currentSet.patterns ∧ p ≠ q := by
    intro p
    simp [havail, List.mem_filter]
  have hne : avail ≠ [] := by
    intro hnil
    rcases eq_or_ne a q with rfl | haq
    · have hbq : b ≠ a := fun h => hab h.symm
      have : b ∈ avail := (hmem b).2 ⟨hb, hbq⟩
      simp [hnil] at this
    · have : a ∈ avail := (hmem a).2 ⟨ha, haq⟩
      simp [hnil] at this
  have hlen : 0 < avail.length := List.length_pos.2 hne
  have hsched : ∀ j : ℕ, scheduleCallout currentSet (some q) j =
      avail.get? (j % avail.length) := by
    intro j
    simp only [scheduleCallout, ← havail, if_pos hlen]
  constructor
  · intro p hp
    rw [hsched] at hp
    exact (hmem p).1 (List.get?_mem hp)
  · intro p hp hpq
    have hpav : p ∈ avail := (hmem p).2 ⟨hp, hpq⟩
    obtain ⟨⟨i, hi⟩, hget⟩ := List.mem_iff_get.1 hpav
    refine ⟨i, ?_⟩
    rw [hsched, Nat.mod_eq_of_lt hi, List.get?_eq_get hi, hget]

/-- Witness for `scheduleCallout_no_immediate_repeat` on the built-in
`Basic 1` set with previous pattern `[1]`. -/
theorem scheduleCallout_no_immediate_repeat_witness :
    (∀ p, scheduleCallout
        { id := "basic-1", name := "Basic 1",
          patterns := [[1], [2], [1, 2]], isDefault := true }
        (some [1]) 0 = some p →
      p ∈ [[1], [2], ([1, 2] : Pattern)] ∧ p ≠ [1]) ∧
    (∀ p ∈ [[1], [2], ([1, 2] : Pattern)], p ≠ [1] →
      ∃ j, scheduleCallout
        { id := "basic-1", name := "Basic 1",
          patterns := [[1], [2], [1, 2]], isDefault := true }
        (some [1]) j = some p) :=
  scheduleCallout_no_immediate_repeat
    { id := "basic-1", name := "Basic 1",
      patterns := [[1], [2], [1, 2]], isDefault := true }
    [1] 0 (by decide)

/-- C9: `removePatternFromSet` never leaves the edited set with zero
patterns.  The operation maps each input set to the output set at the same
position with the same id (so the conclusion speaks about the set the
removal was applied to, not merely some set): that set keeps at least one
pattern whenever it had one, and when filtering the pattern out would have
emptied it, its patterns are left entirely unchanged — the removal is a
no-op on it. -/
theorem removePatternFromSet_never_empties (setId : String)
    (pattern : Pattern) (sets : List PatternSet) (i : ℕ)
    (hi : i < sets.length) :
    ∃ hi' : i < (removePatternFromSet setId pattern sets).length,
      ((removePatternFromSet setId pattern sets).get ⟨i, hi'⟩).id =
        (sets.get ⟨i, hi⟩).id ∧
      ((sets.get ⟨i, hi⟩).patterns ≠ [] →
        ((removePatternFromSet setId pattern sets).get ⟨i, hi'⟩).patterns ≠
          []) ∧
      ((sets.get ⟨i, hi⟩).patterns.filter
          (fun p => decide (p ≠ pattern)) = [] →
        ((removePatternFromSet setId pattern sets).get ⟨i, hi'⟩).patterns =
          (sets.get ⟨i, hi⟩).patterns) := by
  have hi' : i < (removePatternFromSet setId pattern sets).length := by
    simp only [removePatternFromSet, List.length_map]
    exact hi
  have hget : (removePatternFromSet setId pattern sets).get ⟨i, hi'⟩ =
      (fun s : PatternSet =>
        if s.id == setId then
          let newPatterns := s.patterns.filter (fun p => decide (p ≠ pattern))
          { s with
            patterns :=
              if newPatterns.length > 0 then newPatterns else s.patterns }
        else s) (sets.get ⟨i, hi⟩) := by
    simp only [removePatternFromSet, List.get_eq_getElem, List.getElem_map]
  refine ⟨hi', ?_, ?_, ?_⟩
  · rw [hget]
    by_cases hid : (sets.get ⟨i, hi⟩).id == setId
    · simp only [if_pos hid]
    · simp only [if_neg hid]
  · rw [hget]
    intro hne
    by_cases hid : (sets.get ⟨i, hi⟩).id == setId
    · simp only [if_pos hid]
      by_cases hlen : 0 < ((sets.get ⟨i, hi⟩).patterns.filter
          (fun p => decide (p ≠ pattern))).length
      · simp only [if_pos hlen]
        exact fun h => by
          rw [h] at hlen
          simp at hlen
      · simp only [if_neg hlen]
        exact hne
    · simp only [if_neg hid]
      exact hne
  · rw [hget]
    intro hempty
    by_cases hid : (sets.get ⟨i, hi⟩).id == setId
    · simp only [if_pos hid, hempty]
      simp
    · simp only [if_neg hid]

/-- Witness for `removePatternFromSet_never_empties`: removing the last
pattern `[1]` from the one-pattern custom set at position 0 is a no-op on
that very set. -/
theorem removePatternFromSet_never_empties_witness :
    ∃ hi' : 0 < (removePatternFromSet "custom-1" [1]
        [({ id := "custom-1", name := "Solo", patterns := [[1]],
            isDefault := false } : PatternSet)]).length,
      ((removePatternFromSet "custom-1" [1]
          [({ id := "custom-1", name := "Solo", patterns := [[1]],
              isDefault := false } : PatternSet)]).get ⟨0, hi'⟩).id =
        (([({ id := "custom-1", name := "Solo", patterns := [[1]],
              isDefault := false } : PatternSet)]).get
          ⟨0, Nat.zero_lt_one⟩).id ∧
      ((([({ id := "custom-1", name := "Solo", patterns := [[1]],
             isDefault := false } : PatternSet)]).get
          ⟨0, Nat.zero_lt_one⟩).patterns ≠ [] →
        ((removePatternFromSet "custom-1" [1]
            [({ id := "custom-1", name := "Solo", patterns := [[1]],
                isDefault := false } : PatternSet)]).get
          ⟨0, hi'⟩).patterns ≠ []) ∧
      ((([({ id := "custom-1", name := "Solo", patterns := [[1]],
             isDefault := false } : PatternSet)]).get
          ⟨0, Nat.zero_lt_one⟩).patterns.filter
          (fun p => decide (p ≠ ([1] : Pattern))) = [] →
        ((removePatternFromSet "custom-1" [1]
            [({ id := "custom-1", name := "Solo", patterns := [[1]],
                isDefault := false } : PatternSet)]).get
          ⟨0, hi'⟩).patterns =
          (([({ id := "custom-1", name := "Solo", patterns := [[1]],
                isDefault := false } : PatternSet)]).get
            ⟨0, Nat.zero_lt_one⟩).patterns) :=
  removePatternFromSet_never_empties "custom-1" [1]
    [{ id := "custom-1", name := "Solo", patterns := [[1]],
       isDefault := false }]
    0 Nat.zero_lt_one

/-- C8: (i) deleting a default set is a no-op — the whole state, hence
the collection's count and membership, is unchanged; (ii) after loading any
persisted state, every default set is present (missing defaults are
reinserted); (iii) deleting the currently selected non-default set
auto-reselects the first remaining set. -/
theorem defaultSets_protected :
    (∀ (st : HomeState) (setId : String),
      ((st.patternSets.find? (fun s => s.id == setId)).map
        (fun s => s.isDefault)).getD false = true →
      deleteSet setId st = st) ∧
    (∀ (saved : Option (List PatternSet)), ∀ d ∈ DEFAULT_PATTERN_SETS,
      ∃ s ∈ loadedPatternSets saved, s.id = d.id) ∧
    (∀ (st : HomeState) (setId : String) (sd : PatternSet),
      st.patternSets.find? (fun s => s.id == setId) = some sd →
      sd.isDefault = false →
      st.selectedPatternSetId = setId →
      ∀ (x : PatternSet) (xs : List PatternSet),
        st.patternSets.filter (fun s => s.id != setId) = x :: xs →
        (deleteSet setId st).selectedPatternSetId = x.id ∧
        (deleteSet setId st).patternSets = x :: xs) := by
  refine ⟨?_, ?_, ?_⟩
  · intro st setId h
    simp [deleteSet, h]
  · intro saved d hd
    cases saved with
    | none => exact ⟨d, hd, rfl⟩
    | some parsed =>
      by_cases hlen : parsed.length > 0
      · by_cases hany : parsed.any (fun s => s.id == d.id)
        · obtain ⟨s, hs, hsd⟩ := List.any_eq_true.1 hany
          refine ⟨s, ?_, by simpa using hsd⟩
          simp only [loadedPatternSets, if_pos hlen]
          exact List.mem_append_left _ hs
        · refine ⟨d, ?_, rfl⟩
          simp only [loadedPatternSets, if_pos hlen]
          refine List.mem_append_right _ (List.mem_filter.2 ⟨hd, ?_⟩)
          simp [Bool.not_eq_true] at hany ⊢
          exact hany
      · refine ⟨d, ?_, rfl⟩
        simp only [loadedPatternSets, if_neg hlen]
        exact hd
  · intro st setId sd hfind hdef hsel x xs hfilter
    subst hsel
    simp [deleteSet, hfind, hdef, hfilter]

/-- Witness for `defaultSets_protected` on a concrete collection:
deleting the default `basic-1` set is a no-op, `basic-1` is reinserted when
the persisted state lacks it, and deleting the selected custom set
reselects the first default set. -/
theorem defaultSets_protected_witness :
    deleteSet "basic-1" homeStateEx = homeStateEx ∧
    (∃ s ∈ loadedPatternSets (some [customSet5]),
      s.id = ({ id := "basic-1", name := "Basic 1",
                patterns := [[1], [2], [1, 2]],
                isDefault := true } : PatternSet).id) ∧
    (deleteSet "custom-1" homeStateEx).selectedPatternSetId =
      ({ id := "basic-1", name := "Basic 1",
         patterns := [[1], [2], [1, 2]],
         isDefault := true } : PatternSet).id ∧
    (deleteSet "custom-1" homeStateEx).patternSets =
      { id := "basic-1", name := "Basic 1",
        patterns := [[1], [2], [1, 2]],
        isDefault := true } :: DEFAULT_PATTERN_SETS.tail :=
  ⟨defaultSets_protected.1 homeStateEx "basic-1" (by decide),
   defaultSets_protected.2.1 (some [customSet5])
     { id := "basic-1", name := "Basic 1",
       patterns := [[1], [2], [1, 2]], isDefault := true } (by decide),
   defaultSets_protected.2.2 homeStateEx "custom-1" customSet5
     (by decide) (by decide) (by decide)
     { id := "basic-1", name := "Basic 1",
       patterns := [[1], [2], [1, 2]], isDefault := true }
     DEFAULT_PATTERN_SETS.tail (by decide)⟩

/-- Reading back the JSON encoding of a pattern yields the pattern. -/
theorem jsonToPattern_encode (p : Pattern) :
    jsonToPattern (Json.arr (p.map (fun n : ℤ => Json.num (n : ℚ)))) = some p := by
  show jsonToPattern.jsonListToInts (p.map (fun n : ℤ => Json.num (n : ℚ))) =
    some p
  induction p with
  | nil => rfl
  | cons n rest ih =>
    simp only [List.map_cons, jsonToPattern.jsonListToInts]
    rw [if_pos (Rat.den_intCast n), ih]
    simp [Rat.num_intCast]

/-- C6: for every `PatternSet` with a non-empty name and at least one
pattern, decoding the encoded share token succeeds and yields a set whose
name and patterns equal those of the original (the id is regenerated from
the import timestamp and may differ). -/
theorem encodePatternSet_decode_roundtrip (set : PatternSet) (now : ℕ)
    (hname : set.name ≠ "") (_hpat : set.patterns ≠ []) :
    ∃ d, decodePatternSet now (some (encodePatternSet set)) = some d ∧
      d.name = Json.str set.name ∧
      d.patterns = set.patterns.map
        (fun p => Json.arr (p.map (fun n : ℤ => Json.num (n : ℚ)))) ∧
      d.patterns.map jsonToPattern = set.patterns.map some := by
  have hn : getProp (encodePatternSet set) "n" = some (Json.str set.name) :=
    rfl
  have hp : getProp (encodePatternSet set) "p" =
      some (Json.arr (set.patterns.map
        (fun p => Json.arr (p.map (fun n : ℤ => Json.num (n : ℚ)))))) := rfl
  have htr : jsTruthy (Json.str set.name) = true := by
    simp [jsTruthy, hname]
  refine ⟨{ id := "imported-" ++ toString now, name := Json.str set.name,
            patterns := set.patterns.map
              (fun p => Json.arr (p.map (fun n : ℤ => Json.num (n : ℚ)))) },
          ?_, rfl, rfl, ?_⟩
  · rw [decodePatternSet, hn, hp]
    simp [htr]
  · rw [List.map_map]
    have hcomp :
        (jsonToPattern ∘ fun p : Pattern =>
          Json.arr (p.map (fun n : ℤ => Json.num (n : ℚ)))) = some :=
      funext jsonToPattern_encode
    rw [hcomp]

/-- Witness for `encodePatternSet_decode_roundtrip` on a concrete custom
set. -/
theorem encodePatternSet_decode_roundtrip_witness :
    ∃ d, decodePatternSet 7 (some (encodePatternSet customSet5)) = some d ∧
      d.name = Json.str customSet5.name ∧
      d.patterns = customSet5.patterns.map
        (fun p => Json.arr (p.map (fun n : ℤ => Json.num (n : ℚ)))) ∧
      d.patterns.map jsonToPattern = customSet5.patterns.map some :=
  encodePatternSet_decode_roundtrip customSet5 7 (by decide) (by decide)

/-- A successful property lookup means the value was a JSON object. -/
theorem getProp_eq_some_obj {data : Json} {key : String} {v : Json}
    (h : getProp data key = some v) : ∃ fields, data = Json.obj fields := by
  cases data <;> simp [getProp] at h ⊢

/-- C10: `decodePatternSet` succeeds exactly when the (parsed) token is
a JSON object with a truthy `n` field and an array `p` field; the elements
of `p` are not validated — a token whose `p` array holds values that are not
integer sequences still decodes to a set carrying those malformed values
verbatim. -/
theorem decodePatternSet_shape_only (now : ℕ) :
    (∀ parsed : Option Json,
      (∃ d, decodePatternSet now parsed = some d) ↔
      (∃ data, parsed = some data ∧
        (∃ fields, data = Json.obj fields) ∧
        jsTruthyOpt (getProp data "n") = true ∧
        isJsonArray (getProp data "p") = true)) ∧
    decodePatternSet now (some tokenUnvalidatedPatterns) =
      some { id := "imported-" ++ toString now, name := Json.str "X",
             patterns := [Json.str "bad", Json.num 5] } := by
  constructor
  · intro parsed
    constructor
    · rintro ⟨d, hd⟩
      cases parsed with
      | none => simp [decodePatternSet] at hd
      | some data =>
        rw [decodePatternSet] at hd
        rcases hn : getProp data "n" with _ | n <;> rw [hn] at hd
        · simp at hd
        rcases hp : getProp data "p" with _ | j <;> rw [hp] at hd
        · simp at hd
        cases j <;> try simp at hd
        case arr ps =>
          by_cases ht : jsTruthy n
          · exact ⟨data, rfl, getProp_eq_some_obj hn, by
              rw [hn]; simpa [jsTruthyOpt] using ht, by
              rw [hp]; simp [isJsonArray]⟩
          · simp [ht] at hd
    · rintro ⟨data, rfl, ⟨fields, rfl⟩, htr, har⟩
      rcases hn : getProp (Json.obj fields) "n" with _ | n <;>
        rw [hn] at htr
      · simp [jsTruthyOpt] at htr
      rcases hp : getProp (Json.obj fields) "p" with _ | j <;>
        rw [hp] at har
      · simp [isJsonArray] at har
      cases j <;> try simp [isJsonArray] at har
      case arr ps =>
        refine ⟨{ id := "imported-" ++ toString now, name := n,
                  patterns := ps }, ?_⟩
        rw [decodePatternSet, hn, hp]
        simp [jsTruthyOpt] at htr
        simp [htr]
  · rfl

/-! ### Session-trace lemmas for C2 -/

/-- Splitting a transition count over the concatenation of two tick runs. -/
theorem countPhaseChanges_add (config : TrainingConfig) (p q : Phase) :
    ∀ (a b : ℕ) (s : SessionState),
      countPhaseChanges config p q s (a + b) =
        countPhaseChanges config p q s a +
          countPhaseChanges config p q ((tick config)^[a] s) b := by
  intro a
  induction a with
  | zero =>
    intro b s
    simp [countPhaseChanges]
  | succ a ih =>
    intro b s
    rw [Nat.succ_add]
    simp only [countPhaseChanges, Function.iterate_succ_apply, ih, add_assoc]

/-- A tick with more than one second remaining is a pure decrement. -/
theorem tick_decrement (config : TrainingConfig) (s : SessionState)
    (hph : s.phase = Phase.round ∨ s.phase = Phase.rest)
    (hp : s.isPaused = false) (ht : ¬ s.timeRemaining ≤ 1) :
    tick config s = { s with timeRemaining := s.timeRemaining - 1 } := by
  simp [tick, hph, hp, ht]

/-- The final tick of a non-last round enters the rest phase and seeds the
rest timer. -/
theorem tick_round_to_rest (config : TrainingConfig) (s : SessionState)
    (hph : s.phase = Phase.round) (hp : s.isPaused = false)
    (ht : s.timeRemaining ≤ 1) (hlt : s.currentRound < config.rounds) :
    tick config s =
      { s with phase := Phase.rest, timeRemaining := config.restSeconds } := by
  simp [tick, hph, hp, ht, hlt]

/-- The final tick of the last round completes the session. -/
theorem tick_round_to_complete (config : TrainingConfig) (s : SessionState)
    (hph : s.phase = Phase.round) (hp : s.isPaused = false)
    (ht : s.timeRemaining ≤ 1) (hge : ¬ s.currentRound < config.rounds) :
    tick config s =
      { s with phase := Phase.complete, timeRemaining := 0 } := by
  simp [tick, hph, hp, ht, hge]

/-- The final tick of a rest enters the next round: it increments
`currentRound` and reseeds the round timer. -/
theorem tick_rest_to_round (config : TrainingConfig) (s : SessionState)
    (hph : s.phase = Phase.rest) (hp : s.isPaused = false)
    (ht : s.timeRemaining ≤ 1) :
    tick config s =
      { s with phase := Phase.round, currentRound := s.currentRound + 1,
               timeRemaining := config.minutesPerRound * 60 } := by
  simp [tick, hph, hp, ht]

/-- Running down a phase from `k + 1` seconds to 1 second: `k` ticks, no
phase change along the way. -/
theorem countdown_iterate (config : TrainingConfig) :
    ∀ (k : ℕ) (s : SessionState),
      (s.phase = Phase.round ∨ s.phase = Phase.rest) →
      s.isPaused = false →
      s.timeRemaining = (k : ℚ) + 1 →
      (tick config)^[k] s = { s with timeRemaining := 1 } ∧
      ∀ p q : Phase, p ≠ q → countPhaseChanges config p q s k = 0 := by
  intro k
  induction k with
  | zero =>
    intro s _hph _hp ht
    rw [Nat.cast_zero, zero_add] at ht
    constructor
    · cases s
      simp_all
    · intro p q _hpq
      rfl
  | succ k ih =>
    intro s hph hp ht
    have hk0 : (0 : ℚ) ≤ (k : ℚ) := Nat.cast_nonneg k
    have hgt : ¬ s.timeRemaining ≤ 1 := by
      rw [ht]
      push_cast
      intro hcon
      nlinarith
    have hstep := tick_decrement config s hph hp hgt
    have hph' : (tick config s).phase = s.phase := by rw [hstep]
    have hp' : (tick config s).isPaused = false := by rw [hstep]; exact hp
    have ht' : (tick config s).timeRemaining = (k : ℚ) + 1 := by
      rw [hstep]
      show s.timeRemaining - 1 = (k : ℚ) + 1
      rw [ht]
      push_cast
      ring
    obtain ⟨hiter, hcount⟩ := ih (tick config s) (by rw [hph']; exact hph)
      hp' ht'
    constructor
    · rw [Function.iterate_succ_apply, hiter, hstep]
    · intro p q hpq
      have hhead :
          (if s.phase = p ∧ (tick config s).phase = q then 1 else 0) = 0 := by
        rw [if_neg]
        rintro ⟨h1, h2⟩
        rw [hph', h1] at h2
        exact hpq h2
      simp only [countPhaseChanges, hhead, zero_add]
      exact hcount p q hpq

/-- A full round segment that is followed by a rest: `m` ticks take the
state from round-entry to rest-entry, contributing one round→rest transition
and no rest→round transition. -/
theorem round_segment_to_rest (config : TrainingConfig) (s : SessionState)
    (m : ℕ) (hm : 1 ≤ m) (hph : s.phase = Phase.round)
    (hp : s.isPaused = false) (ht : s.timeRemaining = (m : ℚ))
    (hlt : s.currentRound < config.rounds) :
    (tick config)^[m] s =
      { s with phase := Phase.rest, timeRemaining := config.restSeconds } ∧
    countPhaseChanges config Phase.rest Phase.round s m = 0 ∧
    countPhaseChanges config Phase.round Phase.rest s m = 1 := by
  obtain ⟨k, rfl⟩ : ∃ k, m = k + 1 := ⟨m - 1, by omega⟩
  obtain ⟨hiter, hcount⟩ := countdown_iterate config k s (Or.inl hph) hp
    (by rw [ht]; push_cast; ring)
  have h1 : tick config { s with timeRemaining := (1 : ℚ) } =
      { s with phase := Phase.rest, timeRemaining := config.restSeconds } :=
    tick_round_to_rest config _ hph hp le_rfl hlt
  refine ⟨?_, ?_, ?_⟩
  · rw [Function.iterate_succ_apply', hiter, h1]
  · rw [countPhaseChanges_add config _ _ k 1 s,
      hcount Phase.rest Phase.round (by decide), hiter]
    rw [hph] at h1
    simp [countPhaseChanges, h1, hph]
  · rw [countPhaseChanges_add config _ _ k 1 s,
      hcount Phase.round Phase.rest (by decide), hiter]
    rw [hph] at h1
    simp [countPhaseChanges, h1, hph]

/-- The last round segment: `m` ticks take the state from round-entry to
`complete`, contributing no counted transition. -/
theorem round_segment_to_complete (config : TrainingConfig)
    (s : SessionState) (m : ℕ) (hm : 1 ≤ m) (hph : s.phase = Phase.round)
    (hp : s.isPaused = false) (ht : s.timeRemaining = (m : ℚ))
    (hge : ¬ s.currentRound < config.rounds) :
    (tick config)^[m] s =
      { s with phase := Phase.complete, timeRemaining := 0 } ∧
    countPhaseChanges config Phase.rest Phase.round s m = 0 ∧
    countPhaseChanges config Phase.round Phase.rest s m = 0 := by
  obtain ⟨k, rfl⟩ : ∃ k, m = k + 1 := ⟨m - 1, by omega⟩
  obtain ⟨hiter, hcount⟩ := countdown_iterate config k s (Or.inl hph) hp
    (by rw [ht]; push_cast; ring)
  have h1 : tick config { s with timeRemaining := (1 : ℚ) } =
      { s with phase := Phase.complete, timeRemaining := 0 } :=
    tick_round_to_complete config _ hph hp le_rfl hge
  refine ⟨?_, ?_, ?_⟩
  · rw [Function.iterate_succ_apply', hiter, h1]
  · rw [countPhaseChanges_add config _ _ k 1 s,
      hcount Phase.rest Phase.round (by decide), hiter]
    rw [hph] at h1
    simp [countPhaseChanges, h1, hph]
  · rw [countPhaseChanges_add config _ _ k 1 s,
      hcount Phase.round Phase.rest (by decide), hiter]
    rw [hph] at h1
    simp [countPhaseChanges, h1, hph]

/-- A full rest segment: `r` ticks take the state from rest-entry to the
next round-entry (incrementing `currentRound`, reseeding the round timer),
contributing one rest→round transition. -/
theorem rest_segment_to_round (config : TrainingConfig) (s : SessionState)
    (r : ℕ) (hr : 1 ≤ r) (hph : s.phase = Phase.rest)
    (hp : s.isPaused = false) (ht : s.timeRemaining = (r : ℚ)) :
    (tick config)^[r] s =
      { s with phase := Phase.round, currentRound := s.currentRound + 1,
               timeRemaining := config.minutesPerRound * 60 } ∧
    countPhaseChanges config Phase.rest Phase.round s r = 1 ∧
    countPhaseChanges config Phase.round Phase.rest s r = 0 := by
  obtain ⟨k, rfl⟩ : ∃ k, r = k + 1 := ⟨r - 1, by omega⟩
  obtain ⟨hiter, hcount⟩ := countdown_iterate config k s (Or.inr hph) hp
    (by rw [ht]; push_cast; ring)
  have h1 : tick config { s with timeRemaining := (1 : ℚ) } =
      { s with phase := Phase.round, currentRound := s.currentRound + 1,
               timeRemaining := config.minutesPerRound * 60 } :=
    tick_rest_to_round config _ hph hp le_rfl
  refine ⟨?_, ?_, ?_⟩
  · rw [Function.iterate_succ_apply', hiter, h1]
  · rw [countPhaseChanges_add config _ _ k 1 s,
      hcount Phase.rest Phase.round (by decide), hiter]
    rw [hph] at h1
    simp [countPhaseChanges, h1, hph]
  · rw [countPhaseChanges_add config _ _ k 1 s,
      hcount Phase.round Phase.rest (by decide), hiter]
    rw [hph] at h1
    simp [countPhaseChanges, h1, hph]

/-- From a round-entry with `d` more round→…→round iterations left before
the final round, the session reaches `complete` with exactly `d` rest→round
and `d` round→rest transitions on the way. -/
theorem session_aux (config : TrainingConfig) (m r : ℕ)
    (hm : 1 ≤ m) (hr : 1 ≤ r)
    (hmq : config.minutesPerRound * 60 = (m : ℚ))
    (hrq : config.restSeconds = (r : ℚ)) :
    ∀ (d : ℕ) (s : SessionState),
      s.phase = Phase.round → s.isPaused = false →
      s.timeRemaining = (m : ℚ) →
      s.currentRound + (d : ℤ) = config.rounds →
      ∃ N, ((tick config)^[N] s).phase = Phase.complete ∧
        countPhaseChanges config Phase.rest Phase.round s N = d ∧
        countPhaseChanges config Phase.round Phase.rest s N = d := by
  intro d
  induction d with
  | zero =>
    intro s hph hp ht hcr
    have hge : ¬ s.currentRound < config.rounds := by
      push_cast at hcr
      omega
    obtain ⟨hiter, hc1, hc2⟩ :=
      round_segment_to_complete config s m hm hph hp ht hge
    exact ⟨m, by rw [hiter], hc1, hc2⟩
  | succ d ih =>
    intro s hph hp ht hcr
    have hlt : s.currentRound < config.rounds := by
      push_cast at hcr
      omega
    obtain ⟨hiter1, hrr1, hrd1⟩ :=
      round_segment_to_rest config s m hm hph hp ht hlt
    obtain ⟨hiter2, hrr2, hrd2⟩ :=
      rest_segment_to_round config
        { s with phase := Phase.rest, timeRemaining := config.restSeconds }
        r hr rfl hp hrq
    obtain ⟨N, hN, hNrr, hNrd⟩ := ih
      { s with phase := Phase.round, currentRound := s.currentRound + 1,
               timeRemaining := config.minutesPerRound * 60 }
      rfl hp hmq (by push_cast at hcr ⊢; omega)
    refine ⟨m + (r + N), ?_, ?_, ?_⟩
    · have he : m + (r + N) = N + (r + m) := by omega
      rw [he, Function.iterate_add_apply, Function.iterate_add_apply,
        hiter1, hiter2]
      exact hN
    · rw [countPhaseChanges_add config _ _ m (r + N) s, hiter1,
        countPhaseChanges_add config _ _ r N _, hiter2, hrr1, hrr2, hNrr]
      omega
    · rw [countPhaseChanges_add config _ _ m (r + N) s, hiter1,
        countPhaseChanges_add config _ _ r N _, hiter2, hrd1, hrd2, hNrd]
      omega

/-- C2: for every valid configuration with `R ≥ 1` rounds, an integral
round length of `m ≥ 1` seconds and a rest length of `r ≥ 1` seconds, a full
uninterrupted session started by `startTraining` reaches `complete` having
visited exactly `R` round phases (the initial entry plus `R - 1` rest→round
transitions) and `R - 1` rest phases (`R - 1` round→rest transitions); and
every rest→round transition of `tick` increments `currentRound` by 1 and
reseeds the round timer to the configured round length. -/
theorem session_visits_R_rounds (config : TrainingConfig) (R m r : ℕ)
    (s₀ : SessionState)
    (hR : config.rounds = (R : ℤ)) (hR1 : 1 ≤ R)
    (hm : config.minutesPerRound * 60 = (m : ℚ)) (hm1 : 1 ≤ m)
    (hr : config.restSeconds = (r : ℚ)) (hr1 : 1 ≤ r) :
    (∃ N, ((tick config)^[N] (startTraining config s₀)).phase =
        Phase.complete ∧
      1 + countPhaseChanges config Phase.rest Phase.round
        (startTraining config s₀) N = R ∧
      countPhaseChanges config Phase.round Phase.rest
        (startTraining config s₀) N = R - 1) ∧
    (∀ s : SessionState, s.phase = Phase.rest →
      (tick config s).phase = Phase.round →
      (tick config s).currentRound = s.currentRound + 1 ∧
      (tick config s).timeRemaining = config.minutesPerRound * 60) := by
  constructor
  · obtain ⟨N, hN, hrr, hrd⟩ :=
      session_aux config m r hm1 hr1 hm hr (R - 1) (startTraining config s₀)
        rfl rfl hm
        (by
          show (1 : ℤ) + ((R - 1 : ℕ) : ℤ) = config.rounds
          rw [hR, Nat.cast_sub hR1]
          push_cast
          ring)
    exact ⟨N, hN, by omega, hrd⟩
  · intro s hrest hround
    by_cases hp : s.isPaused
    · rw [show tick config s = s by simp [tick, hrest, hp]] at hround
      rw [hrest] at hround
      exact absurd hround (by decide)
    · by_cases ht : s.timeRemaining ≤ 1
      · rw [tick_rest_to_round config s hrest (by simpa using hp) ht]
        exact ⟨rfl, rfl⟩
      · rw [tick_decrement config s (Or.inr hrest) (by simpa using hp) ht]
          at hround
        rw [hrest] at hround
        exact absurd hround (by decide)

/-- Witness for `session_visits_R_rounds`: 3 rounds of 120 s with 30 s rest
give 3 round phases, 2 rest phases, then `complete`. -/
theorem session_visits_R_rounds_witness :
    (∃ N, ((tick cfgEx)^[N] (startTraining cfgEx setupState)).phase =
        Phase.complete ∧
      1 + countPhaseChanges cfgEx Phase.rest Phase.round
        (startTraining cfgEx setupState) N = 3 ∧
      countPhaseChanges cfgEx Phase.round Phase.rest
        (startTraining cfgEx setupState) N = 3 - 1) ∧
    (∀ s : SessionState, s.phase = Phase.rest →
      (tick cfgEx s).phase = Phase.round →
      (tick cfgEx s).currentRound = s.currentRound + 1 ∧
      (tick cfgEx s).timeRemaining = cfgEx.minutesPerRound * 60) :=
  session_visits_R_rounds cfgEx 3 120 30 setupState (by norm_num [cfgEx])
    (by norm_num) (by norm_num [cfgEx]) (by norm_num) (by norm_num [cfgEx])
    (by norm_num)

end BagResponse
